import Mathlib

/-!
Shallow embedding of SecureWipe-Cpp (src/src/secure_wipe.cpp, src/include/secure_wipe.h).

The C++ core offers two operations:
  wipe_file(path, options)                      — overwrite a regular file for
    `passes` passes with a fill pattern in chunks of `block_size`, flush each
    pass, then delete the file;
  wipe_directory(dir, options, dry_run, yes)    — a guarded recursive sweep that
    previews or wipes every regular file under a directory.

Filesystem and OS effects are embedded as oracles: a `FileWorld` (resp.
`DirWorld`) records the answer every filesystem call would give, and the
embedded functions return the `WipeResult` the C++ returns together with a
trace of the observable effects (bytes handed to `ofstream::write`, preview
prints, wipe attempts, directory-removal attempts).  The unbounded per-pass
chunk loop is written on explicit fuel; exhausting the fuel yields `none`,
so nontermination of the loop is expressible.
-/

/-- `enum class Pattern { Zeros, Random };` from include/secure_wipe.h. -/
inductive Pattern where
  | Zeros : Pattern
  | Random : Pattern
deriving DecidableEq, Repr

/-- `struct WipeOptions` from include/secure_wipe.h.  `passes` is a C++ `int`
(signed), `block_size` a `std::size_t`. -/
structure WipeOptions where
  passes : Int
  pattern : Pattern
  block_size : Nat
deriving DecidableEq, Repr

/-- `struct WipeResult { bool ok; std::string message; };`. -/
structure WipeResult where
  ok : Bool
  message : String
deriving DecidableEq, Repr

/-- Oracle for every filesystem/OS call `wipe_file` makes on its path:
  * `pathExists`    — result of `fs::exists(path, ec)`;
  * `isRegularFile` — result of `fs::is_regular_file(path, ec)`;
  * `fileSize`      — `fs::file_size(path, ec)`: `ok size`, or `error m` when
                      `ec` is set with message `m`;
  * `errnoStr`      — `std::strerror(errno)` as used by `errstr`;
  * `openOk p`      — whether `std::ofstream ofs(path, ...)` succeeds in pass `p`;
  * `writeOk p i`   — whether the `i`-th `ofs.write` of pass `p` leaves the
                      stream good;
  * `flushOk p`     — whether `flush_to_disk` succeeds in pass `p`
                      (`ofs.flush()` leaves the stream good);
  * `rand`          — the stream of `dist(rng)` draws of the
                      `std::mt19937_64` / `uniform_int_distribution(0,255)`
                      pair, indexed by consumption order;
  * `removeRet`     — the `bool` returned by `fs::remove(path, ec)`;
  * `removeEc`      — `some m` when that call sets `ec` with message `m`. -/
structure FileWorld where
  pathExists : Bool
  isRegularFile : Bool
  fileSize : Except String Nat
  errnoStr : String
  openOk : Nat → Bool
  writeOk : Nat → Nat → Bool
  flushOk : Nat → Bool
  rand : Nat → Nat
  removeRet : Bool
  removeEc : Option String

/-- One overwrite pass writes a list of chunks; each chunk is the list of byte
values handed to `ofs.write`. -/
abbrev Chunk := List Nat

/-- Outcome of `wipe_file`: the returned `WipeResult`, the chunks successfully
written in each pass (`trace[p]` is the chunk list of overwrite pass `p+1`),
and whether `fs::remove` reported the file deleted. -/
structure WipeOutcome where
  result : WipeResult
  trace : List (List Chunk)
  deleted : Bool
deriving DecidableEq, Repr

/-- Whether the file still exists after `wipe_file`: it existed before and was
not deleted. -/
def existsAfter (w : FileWorld) (o : WipeOutcome) : Bool :=
  w.pathExists && !o.deleted

/-- The bytes placed into `buf[0..chunk)` for one chunk: `std::fill(...,0x00)`
for `Pattern::Zeros`, otherwise `chunk` fresh draws `dist(rng)` (values in
`0..255`, modelled as `rand i % 256` at consumption indices `rngIdx + i`). -/
def fillChunk (opt : WipeOptions) (rand : Nat → Nat) (rngIdx chunk : Nat) : Chunk :=
  match opt.pattern with
  | Pattern.Zeros => List.replicate chunk 0
  | Pattern.Random => (List.range chunk).map (fun i => rand (rngIdx + i) % 256)

/-- The inner `while (remaining > 0)` loop of one pass of `wipe_file`
(secure_wipe.cpp lines 79–98), on explicit fuel.  Each iteration takes
`chunk = min(remaining, buf.size())` where `buf.size() = opt.block_size`,
fills the buffer, writes it, and on write failure returns the
`errstr("Write failed during overwrite")` message.  Returns
`some (maybeError, chunksWritten, nextRngIdx)`, or `none` when the fuel is
exhausted before `remaining` reaches `0`. -/
def chunkLoop (w : FileWorld) (opt : WipeOptions) (pass : Nat) :
    Nat → Nat → Nat → Nat → Option (Option String × List Chunk × Nat)
  | fuel, remaining, chunkIdx, rngIdx =>
    if remaining = 0 then some (none, [], rngIdx)
    else
      match fuel with
      | 0 => none
      | fuel' + 1 =>
        let chunk := min remaining opt.block_size
        let data := fillChunk opt w.rand rngIdx chunk
        let rngIdx' := if opt.pattern = Pattern.Random then rngIdx + chunk else rngIdx
        if w.writeOk pass chunkIdx then
          match chunkLoop w opt pass fuel' (remaining - chunk) (chunkIdx + 1) rngIdx' with
          | none => none
          | some (err, chunks, r) => some (err, data :: chunks, r)
        else
          some (some ("Write failed during overwrite: " ++ w.errnoStr), [], rngIdx')

/-- The outer `for (int pass = 1; pass <= opt.passes; ++pass)` loop of
`wipe_file` (secure_wipe.cpp lines 70–105): `n` remaining iterations starting
at pass number `pass`.  Each pass opens the file (failure:
`errstr("Failed to open file for overwrite")`), runs the chunk loop over the
whole `size`, and flushes (failure: `"Flush failed"`).  Returns
`some (maybeError, perPassChunkLists)`, or `none` on fuel exhaustion in the
chunk loop. -/
def passLoop (w : FileWorld) (opt : WipeOptions) (size fuel : Nat) :
    Nat → Nat → Nat → Option (Option String × List (List Chunk))
  | 0, _, _ => some (none, [])
  | n + 1, pass, rngIdx =>
    if w.openOk pass then
      match chunkLoop w opt pass fuel size 0 rngIdx with
      | none => none
      | some (some err, chunks, _) => some (some err, [chunks])
      | some (none, chunks, rng') =>
        if w.flushOk pass then
          match passLoop w opt size fuel n (pass + 1) rng' with
          | none => none
          | some (err, rest) => some (err, chunks :: rest)
        else
          some (some "Flush failed", [chunks])
    else
      some (some ("Failed to open file for overwrite: " ++ w.errnoStr), [])

/-- `wipe_file` (secure_wipe.cpp lines 37–117) over the oracle `w`.
Precondition checks in source order: existence, regular file, determinable
size, `passes >= 1`; then the pass loop, then `fs::remove` with the
`!fs::remove(path, ec) || ec` failure test and the
`"Failed to delete file: " + (ec ? ec.message() : "unknown error")` message.
`none` models nontermination of the chunk loop (fuel exhausted). -/
def wipe_file (w : FileWorld) (opt : WipeOptions) (fuel : Nat) : Option WipeOutcome :=
  if !w.pathExists then
    some { result := { ok := false, message := "Path does not exist" },
           trace := [], deleted := false }
  else if !w.isRegularFile then
    some { result := { ok := false,
                       message := "Path is not a regular file (directories not supported in MVP)" },
           trace := [], deleted := false }
  else
    match w.fileSize with
    | Except.error m =>
      some { result := { ok := false, message := "Failed to get file size: " ++ m },
             trace := [], deleted := false }
    | Except.ok size =>
      if opt.passes ≤ 0 then
        some { result := { ok := false, message := "passes must be >= 1" },
               trace := [], deleted := false }
      else
        match passLoop w opt size fuel opt.passes.toNat 1 0 with
        | none => none
        | some (some err, tr) =>
          some { result := { ok := false, message := err }, trace := tr, deleted := false }
        | some (none, tr) =>
          if !w.removeRet || w.removeEc.isSome then
            some { result := { ok := false,
                               message := "Failed to delete file: " ++
                                 (match w.removeEc with
                                  | some m => m
                                  | none => "unknown error") },
                   trace := tr, deleted := w.removeRet }
          else
            some { result := { ok := true, message := "Wiped and deleted successfully" },
                   trace := tr, deleted := true }

/-- The overwrite phase of `wipe_file` ran and fully succeeded: the
preconditions passed and the pass loop finished with no error. -/
def overwriteSucceeded (w : FileWorld) (opt : WipeOptions) (fuel : Nat) : Prop :=
  w.pathExists = true ∧ w.isRegularFile = true ∧
  ∃ size tr, w.fileSize = Except.ok size ∧ 0 < opt.passes ∧
    passLoop w opt size fuel opt.passes.toNat 1 0 = some (none, tr)

/-- Spec-side description of the chunk sizes of one pass over a file of `size`
bytes with block size `b`: successive chunks of `min b remaining` bytes, the
last chunk truncated to the remaining bytes. -/
def chunkSizes (b : Nat) (size : Nat) : List Nat :=
  if h : size = 0 then []
  else if hb : b = 0 then []
  else min b size :: chunkSizes b (size - min b size)
termination_by size
decreasing_by
  exact Nat.sub_lt (Nat.pos_of_ne_zero h)
    (lt_min (Nat.pos_of_ne_zero hb) (Nat.pos_of_ne_zero h))

/-- Observable side effects of `wipe_directory`:
  * `previewNotice p`    — the dry-run line `[DRY-RUN] would wipe: p`;
  * `wipeAttempt p`      — a `wipe_file(p, opt)` call made by the execute loop;
  * `removeDirAttempt p` — a cleanup `fs::remove(p, ec4)` call. -/
inductive DirEvent where
  | previewNotice : String → DirEvent
  | wipeAttempt : String → DirEvent
  | removeDirAttempt : String → DirEvent
deriving DecidableEq, Repr

/-- One entry yielded by `fs::recursive_directory_iterator` (with
`skip_permission_denied`; entries the process cannot read never appear), with
the oracle answers of the calls the loops make on it:
  * `iterEc`          — the iterator `ec` was set when this entry came up
                        (the loops then `continue`);
  * `isSymlink`       — result of `fs::is_symlink(p, ec2)` (false also on error,
                        since that call's `ec2` is not inspected);
  * `isRegular`       — result of `fs::is_regular_file(p, ec2)`;
  * `regularEc`       — whether that call set `ec2`;
  * `isDirFollowed`   — result of `fs::is_directory(p, ec3)` in the cleanup
                        loop; note `fs::is_directory` follows symlinks, so it
                        is true for a symlink whose target is a directory;
  * `isDirEc3`        — whether that call set `ec3`;
  * `fileWorld`       — the `FileWorld` oracle for `wipe_file` on this path;
  * `cleanupRemoveOk` — whether the cleanup `fs::remove(p, ec4)` succeeds
                        (for a plain directory: only if empty; for a symlink:
                        the link itself is unlinked). -/
structure DirEntry where
  path : String
  iterEc : Bool
  isSymlink : Bool
  isRegular : Bool
  regularEc : Bool
  isDirFollowed : Bool
  isDirEc3 : Bool
  fileWorld : FileWorld
  cleanupRemoveOk : Bool

/-- Oracle for the filesystem calls `wipe_directory` and `is_dangerous_dir`
make on the target directory:
  * `dirExists` / `dirExistsEc` — result of `fs::exists(d, ec)` and whether
                                  `ec` was set;
  * `isDir` / `isDirEc`         — likewise for `fs::is_directory(d, ec)`;
  * `weaklyCanonical`           — `fs::weakly_canonical(p, ec)`: the canonical
                                  path, or `error` when `ec` is set;
  * `absolutePath`              — the fallback `fs::absolute(p, ec)`;
  * `home`                      — `std::getenv("HOME")`;
  * `homeCanonical`             — `fs::weakly_canonical(home, ec2)`;
  * `entries`                   — the recursive traversal of the directory, in
                                  iteration order (the same world serves every
                                  traversal; concurrent mutation between the
                                  passes is out of scope). -/
structure DirWorld where
  dirExists : Bool
  dirExistsEc : Bool
  isDir : Bool
  isDirEc : Bool
  weaklyCanonical : Except Unit String
  absolutePath : Except Unit String
  home : Option String
  homeCanonical : Except Unit String
  entries : List DirEntry

/-- The fixed deny-list test of `is_dangerous_dir` (secure_wipe.cpp lines
125–132): the filesystem root, then the three hardcoded system directories. -/
def fixedDenyHit (canon : String) : Bool :=
  if canon = "/" then true
  else if canon = "/System" || canon = "/Library" || canon = "/Applications" then true
  else false

/-- The home-directory test of `is_dangerous_dir` (lines 134–140): only when
`HOME` is set and `fs::weakly_canonical(home, ec2)` succeeds is `canon`
compared against it; otherwise the check is skipped. -/
def homeHit (w : DirWorld) (canon : String) : Bool :=
  match w.home with
  | none => false
  | some _ =>
    match w.homeCanonical with
    | Except.error _ => false
    | Except.ok homep => canon = homep

/-- `is_dangerous_dir` (secure_wipe.cpp lines 119–143): canonicalize via
`fs::weakly_canonical`; on failure fall back to `fs::absolute`; if that also
fails, report dangerous; otherwise test the resulting path against the fixed
deny-list and the resolved home directory. -/
def is_dangerous_dir (w : DirWorld) : Bool :=
  match w.weaklyCanonical with
  | Except.ok canon => fixedDenyHit canon || homeHit w canon
  | Except.error _ =>
    match w.absolutePath with
    | Except.error _ => true
    | Except.ok canon => fixedDenyHit canon || homeHit w canon

/-- The canonical path `is_dangerous_dir` ends up comparing: the
`weakly_canonical` result, else the `absolute` fallback, else `none` when both
fail. -/
def usedCanon (w : DirWorld) : Option String :=
  match w.weaklyCanonical with
  | Except.ok c => some c
  | Except.error _ =>
    match w.absolutePath with
    | Except.ok c => some c
    | Except.error _ => none

/-- Whether an entry is counted/wiped by the enumeration and execute loops:
not skipped by an iterator error, not a symlink, and
`fs::is_regular_file(p, ec2) && !ec2`. -/
def qualifies (e : DirEntry) : Bool :=
  !e.iterEc && !e.isSymlink && (e.isRegular && !e.regularEc)

/-- The first traversal of `wipe_directory` (secure_wipe.cpp lines 180–199):
count every qualifying regular file and, when `dry_run` is set, print one
`[DRY-RUN]` preview line per file.  Returns `(total_files, previews)`. -/
def enumerateFiles (dry_run : Bool) : List DirEntry → Nat × List DirEvent
  | [] => (0, [])
  | e :: rest =>
    let r := enumerateFiles dry_run rest
    if qualifies e then
      (r.1 + 1, if dry_run then DirEvent.previewNotice e.path :: r.2 else r.2)
    else r

/-- The execute traversal (secure_wipe.cpp lines 209–228): call `wipe_file` on
every qualifying entry, counting successes and failures; a failure never stops
the loop.  Returns `some (wiped_files, failed_files, events)`, or `none` when
some inner `wipe_file` runs out of fuel. -/
def execEntries (opt : WipeOptions) (fuel : Nat) : List DirEntry → Option (Nat × Nat × List DirEvent)
  | [] => some (0, 0, [])
  | e :: rest =>
    if qualifies e then
      match wipe_file e.fileWorld opt fuel with
      | none => none
      | some o =>
        match execEntries opt fuel rest with
        | none => none
        | some (wiped, failed, evs) =>
          if o.result.ok then some (wiped + 1, failed, DirEvent.wipeAttempt e.path :: evs)
          else some (wiped, failed + 1, DirEvent.wipeAttempt e.path :: evs)
    else execEntries opt fuel rest

/-- The entries the cleanup loop collects (secure_wipe.cpp lines 233–239):
every non-errored entry with `fs::is_directory(p, ec3) && !ec3` — including,
because `fs::is_directory` follows symlinks, symlinks to directories. -/
def cleanupDirs (es : List DirEntry) : List DirEntry :=
  es.filter (fun e => !e.iterEc && (e.isDirFollowed && !e.isDirEc3))

/-- The best-effort removal sweep (lines 240–243): `fs::remove` on the
collected entries in reverse order; failures ignored.  Returns the attempt
events and the paths whose removal succeeded. -/
def cleanupSweep (es : List DirEntry) : List DirEvent × List String :=
  ((cleanupDirs es).reverse.map (fun e => DirEvent.removeDirAttempt e.path),
   ((cleanupDirs es).reverse.filter (fun e => e.cleanupRemoveOk)).map (fun e => e.path))

/-- Outcome of `wipe_directory`: the returned `WipeResult`, the observable
events in order, the three traversal counters, and the paths removed by the
cleanup sweep. -/
structure DirOutcome where
  result : WipeResult
  events : List DirEvent
  totalFiles : Nat
  wipedFiles : Nat
  failedFiles : Nat
  removedPaths : List String
deriving DecidableEq, Repr

/-- An outcome with no side effects, as produced by every early return of
`wipe_directory`. -/
def emptyOutcome (ok : Bool) (msg : String) : DirOutcome :=
  { result := { ok := ok, message := msg },
    events := [], totalFiles := 0, wipedFiles := 0, failedFiles := 0, removedPaths := [] }

/-- `wipe_directory` (secure_wipe.cpp lines 145–250) over the oracle `w`:
existence and directory checks (`!fs::exists(d, ec) || ec` and
`!fs::is_directory(d, ec) || ec`), the dangerous-directory refusal, the
safety stop when neither `dry_run` nor `yes` is set, the counting/preview
traversal, the dry-run early return, the execute traversal, the cleanup
sweep, and the final `ok = (failed_files == 0)` result. -/
def wipe_directory (w : DirWorld) (opt : WipeOptions) (dry_run yes : Bool) (fuel : Nat) :
    Option DirOutcome :=
  if !w.dirExists || w.dirExistsEc then
    some (emptyOutcome false "Directory does not exist")
  else if !w.isDir || w.isDirEc then
    some (emptyOutcome false "Path is not a directory")
  else if is_dangerous_dir w then
    some (emptyOutcome false "Refusing to wipe a dangerous directory. Choose a safer target.")
  else if !dry_run && !yes then
    some (emptyOutcome false "Safety stop: wipe-dir requires --dry-run (preview) or --yes (execute).")
  else
    let enum := enumerateFiles dry_run w.entries
    if dry_run then
      some { result := { ok := true,
                         message := "Dry-run complete. Files to wipe: " ++ toString enum.1 ++
                           ". Re-run with --yes to execute." },
             events := enum.2, totalFiles := enum.1, wipedFiles := 0, failedFiles := 0,
             removedPaths := [] }
    else
      match execEntries opt fuel w.entries with
      | none => none
      | some (wiped, failed, evs) =>
        let cl := cleanupSweep w.entries
        some { result := { ok := failed == 0,
                           message := "wipe-dir complete. total=" ++ toString enum.1 ++
                             ", wiped=" ++ toString wiped ++ ", failed=" ++ toString failed },
               events := evs ++ cl.1, totalFiles := enum.1, wipedFiles := wiped,
               failedFiles := failed, removedPaths := cl.2 }

/-- The `res.ok` of the `wipe_file` call the execute loop makes on an entry
(`false` also when the call runs out of fuel, where `execEntries` yields
`none` anyway). -/
def wipeOk (opt : WipeOptions) (fuel : Nat) (e : DirEntry) : Bool :=
  match wipe_file e.fileWorld opt fuel with
  | some o => o.result.ok
  | none => false

/-! ### Concrete worlds used to instantiate the theorems -/

/-- A 3-byte regular file on which every filesystem call succeeds. -/
def fwOk : FileWorld :=
  { pathExists := true, isRegularFile := true, fileSize := Except.ok 3, errnoStr := "",
    openOk := fun _ => true, writeOk := fun _ _ => true, flushOk := fun _ => true,
    rand := fun _ => 0, removeRet := true, removeEc := none }

/-- A path that does not exist. -/
def fwMissing : FileWorld :=
  { pathExists := false, isRegularFile := true, fileSize := Except.ok 3, errnoStr := "",
    openOk := fun _ => true, writeOk := fun _ _ => true, flushOk := fun _ => true,
    rand := fun _ => 0, removeRet := true, removeEc := none }

/-- An existing path that is not a regular file. -/
def fwNotRegular : FileWorld :=
  { pathExists := true, isRegularFile := false, fileSize := Except.ok 3, errnoStr := "",
    openOk := fun _ => true, writeOk := fun _ _ => true, flushOk := fun _ => true,
    rand := fun _ => 0, removeRet := true, removeEc := none }

/-- A regular file whose overwrite succeeds but whose `fs::remove` fails. -/
def fwNoDelete : FileWorld :=
  { pathExists := true, isRegularFile := true, fileSize := Except.ok 3, errnoStr := "",
    openOk := fun _ => true, writeOk := fun _ _ => true, flushOk := fun _ => true,
    rand := fun _ => 0, removeRet := false, removeEc := some "Permission denied" }

/-- A regular file whose size cannot be determined. -/
def fwSizeErr : FileWorld :=
  { pathExists := true, isRegularFile := true,
    fileSize := Except.error "Input/output error", errnoStr := "",
    openOk := fun _ => true, writeOk := fun _ _ => true, flushOk := fun _ => true,
    rand := fun _ => 0, removeRet := true, removeEc := none }

/-- Two zero-fill passes with 2-byte blocks. -/
def optZeros2 : WipeOptions := { passes := 2, pattern := Pattern.Zeros, block_size := 2 }

/-- An invalid pass count. -/
def optPassesZero : WipeOptions := { passes := 0, pattern := Pattern.Zeros, block_size := 1024 }

/-- A zero block size (never validated by the code). -/
def optBlockZero : WipeOptions := { passes := 1, pattern := Pattern.Zeros, block_size := 0 }

/-- Options used for the directory-sweep instances. -/
def optDir : WipeOptions := { passes := 1, pattern := Pattern.Zeros, block_size := 4 }

/-- A regular-file traversal entry backed by the oracle `fw`. -/
def entryFile (p : String) (fw : FileWorld) : DirEntry :=
  { path := p, iterEc := false, isSymlink := false, isRegular := true, regularEc := false,
    isDirFollowed := false, isDirEc3 := false, fileWorld := fw, cleanupRemoveOk := false }

/-- A symbolic link whose target is a directory: `fs::is_symlink` is true, and
`fs::is_directory` — which follows the link — is also true; the cleanup
`fs::remove` unlinks it. -/
def entrySymlinkToDir (p : String) : DirEntry :=
  { path := p, iterEc := false, isSymlink := true, isRegular := false, regularEc := false,
    isDirFollowed := true, isDirEc3 := false, fileWorld := fwOk, cleanupRemoveOk := true }

/-- A safe working directory holding two regular files (one of which vanishes
before its wipe, so its `wipe_file` fails) and one symlink. -/
def dwSafe : DirWorld :=
  { dirExists := true, dirExistsEc := false, isDir := true, isDirEc := false,
    weaklyCanonical := Except.ok "/tmp/work", absolutePath := Except.ok "/tmp/work",
    home := none, homeCanonical := Except.error (),
    entries := [entryFile "/tmp/work/a.txt" fwOk, entryFile "/tmp/work/b.txt" fwMissing,
                entrySymlinkToDir "/tmp/work/link"] }

/-- A directory whose canonical path is the deny-listed `/System`. -/
def dwDanger : DirWorld :=
  { dirExists := true, dirExistsEc := false, isDir := true, isDirEc := false,
    weaklyCanonical := Except.ok "/System", absolutePath := Except.ok "/System",
    home := none, homeCanonical := Except.error (), entries := [] }

/-- A directory that resolves to the home directory taken from `HOME`. -/
def dwHome : DirWorld :=
  { dirExists := true, dirExistsEc := false, isDir := true, isDirEc := false,
    weaklyCanonical := Except.ok "/Users/u", absolutePath := Except.ok "/Users/u",
    home := some "/Users/u", homeCanonical := Except.ok "/Users/u", entries := [] }

/-- `fs::weakly_canonical` fails but the `fs::absolute` fallback succeeds on a
harmless path. -/
def dwCanonFail : DirWorld :=
  { dirExists := true, dirExistsEc := false, isDir := true, isDirEc := false,
    weaklyCanonical := Except.error (), absolutePath := Except.ok "/tmp/data",
    home := none, homeCanonical := Except.error (), entries := [] }

/-- Both `fs::weakly_canonical` and the `fs::absolute` fallback fail. -/
def dwBothFail : DirWorld :=
  { dirExists := true, dirExistsEc := false, isDir := true, isDirEc := false,
    weaklyCanonical := Except.error (), absolutePath := Except.error (),
    home := none, homeCanonical := Except.error (), entries := [] }

/-- A safe directory whose only descendant is a symlink pointing at a
directory. -/
def dwSymdir : DirWorld :=
  { dirExists := true, dirExistsEc := false, isDir := true, isDirEc := false,
    weaklyCanonical := Except.ok "/tmp/tree", absolutePath := Except.ok "/tmp/tree",
    home := none, homeCanonical := Except.error (),
    entries := [entrySymlinkToDir "/tmp/tree/escape"] }

/-- The outcome `wipe_file` computes on `fwOk` with `optZeros2` and fuel 3:
two passes of chunks `[0,0]` and `[0]`, then a successful deletion. -/
def fwOkOutcome : WipeOutcome :=
  { result := { ok := true, message := "Wiped and deleted successfully" },
    trace := [[[0, 0], [0]], [[0, 0], [0]]], deleted := true }

/-- The outcome `wipe_directory` computes on `dwSafe` in execute mode with
`optDir` and fuel 3: `a.txt` wiped, `b.txt` failed, and — because
`fs::is_directory` follows symlinks — the symlink removed by the cleanup
sweep. -/
def dwSafeExecOutcome : DirOutcome :=
  { result := { ok := false, message := "wipe-dir complete. total=2, wiped=1, failed=1" },
    events := [DirEvent.wipeAttempt "/tmp/work/a.txt", DirEvent.wipeAttempt "/tmp/work/b.txt",
               DirEvent.removeDirAttempt "/tmp/work/link"],
    totalFiles := 2, wipedFiles := 1, failedFiles := 1,
    removedPaths := ["/tmp/work/link"] }

/-! ### Helper lemmas about the pass loop -/

theorem passLoop_zero (w : FileWorld) (opt : WipeOptions) (size fuel pass rngIdx : Nat) :
    passLoop w opt size fuel 0 pass rngIdx = some (none, []) := rfl

theorem passLoop_none_length (w : FileWorld) (opt : WipeOptions) (size fuel : Nat) :
    ∀ n pass rngIdx tr, passLoop w opt size fuel n pass rngIdx = some (none, tr) →
    tr.length = n := by
  intro n
  induction n with
  | zero =>
    intro pass rngIdx tr h
    rw [passLoop_zero] at h
    simp only [Option.some.injEq, Prod.mk.injEq] at h
    simp [← h.2]
  | succ n ih =>
    intro pass rngIdx tr h
    rw [passLoop] at h
    by_cases ho : w.openOk pass
    · simp only [ho, if_true] at h
      cases hc : chunkLoop w opt pass fuel size 0 rngIdx with
      | none => simp [hc] at h
      | some res =>
        obtain ⟨err, chunks, rng'⟩ := res
        cases err with
        | some e => simp [hc] at h
        | none =>
          simp only [hc] at h
          by_cases hf : w.flushOk pass
          · simp only [hf, if_true] at h
            cases hp : passLoop w opt size fuel n (pass + 1) rng' with
            | none => simp [hp] at h
            | some res2 =>
              obtain ⟨err2, rest⟩ := res2
              simp only [hp, Option.some.injEq, Prod.mk.injEq] at h
              obtain ⟨herr, htr⟩ := h
              subst herr
              rw [← htr]
              simp [ih (pass + 1) rng' rest hp]
          · simp [hf] at h
    · simp [ho] at h

/-- C1: if `wipe_file` returns `ok=true` then every overwrite pass and the
final deletion succeeded, the file no longer exists afterwards, and the
message is exactly "Wiped and deleted successfully"; if deletion fails after
a successful overwrite, `wipe_file` returns `ok=false` with a message
beginning "Failed to delete file: ". -/
theorem C1_wipe_file_success_and_delete_failure (w : FileWorld) (opt : WipeOptions)
    (fuel : Nat) (o : WipeOutcome) (h : wipe_file w opt fuel = some o) :
    (o.result.ok = true →
      o.result.message = "Wiped and deleted successfully" ∧
      o.deleted = true ∧ existsAfter w o = false ∧
      w.removeRet = true ∧ w.removeEc = none ∧
      o.trace.length = opt.passes.toNat ∧ overwriteSucceeded w opt fuel) ∧
    (overwriteSucceeded w opt fuel →
      ¬(w.removeRet = true ∧ w.removeEc = none) →
      o.result.ok = false ∧ ∃ m, o.result.message = "Failed to delete file: " ++ m) := by
  by_cases hex : w.pathExists
  · by_cases hreg : w.isRegularFile
    · cases hfs : w.fileSize with
      | error m =>
        simp only [wipe_file, hex, hreg, hfs, Bool.not_true, Bool.false_eq_true, if_false] at h
        injection h with h'
        subst h'
        constructor
        · intro hok; simp at hok
        · rintro ⟨-, -, size, tr, hsz, -, -⟩ -
          rw [hfs] at hsz; exact absurd hsz (by simp)
      | ok size =>
        by_cases hp : opt.passes ≤ 0
        · simp only [wipe_file, hex, hreg, hfs, hp, Bool.not_true, Bool.false_eq_true,
            if_false, if_true] at h
          injection h with h'
          subst h'
          constructor
          · intro hok; simp at hok
          · rintro ⟨-, -, size', tr, hsz, hpos, -⟩ -
            omega
        · cases hpl : passLoop w opt size fuel opt.passes.toNat 1 0 with
          | none =>
            simp only [wipe_file, hex, hreg, hfs, hp, hpl, Bool.not_true, Bool.false_eq_true,
              if_false] at h
            exact absurd h (by simp)
          | some res =>
            obtain ⟨err, tr⟩ := res
            cases err with
            | some e =>
              simp only [wipe_file, hex, hreg, hfs, hp, hpl, Bool.not_true, Bool.false_eq_true,
                if_false] at h
              injection h with h'
              subst h'
              constructor
              · intro hok; simp at hok
              · rintro ⟨-, -, size', tr', hsz, -, hpl'⟩ -
                rw [hfs] at hsz
                injection hsz with hsz'
                subst hsz'
                rw [hpl] at hpl'
                simp at hpl'
            | none =>
              by_cases hrm : (!w.removeRet || w.removeEc.isSome)
              · simp only [wipe_file, hex, hreg, hfs, hp, hpl, hrm, Bool.not_true,
                  Bool.false_eq_true, if_false, if_true] at h
                injection h with h'
                subst h'
                constructor
                · intro hok; simp at hok
                · intro _ _
                  refine ⟨rfl, ?_⟩
                  exact ⟨(match w.removeEc with | some m => m | none => "unknown error"), rfl⟩
              · have hrm' : w.removeRet = true ∧ w.removeEc = none := by
                  rcases hret : w.removeRet with - | -
                  · simp [hret] at hrm
                  · rcases hecv : w.removeEc with - | m
                    · exact ⟨rfl, rfl⟩
                    · simp [hret, hecv] at hrm
                simp only [wipe_file, hex, hreg, hfs, hp, hpl, hrm, Bool.not_true,
                  Bool.false_eq_true, if_false, if_true] at h
                injection h with h'
                subst h'
                constructor
                · intro _
                  refine ⟨rfl, rfl, ?_, hrm'.1, hrm'.2, ?_, ?_⟩
                  · simp [existsAfter]
                  · exact passLoop_none_length w opt size fuel opt.passes.toNat 1 0 tr hpl
                  · exact ⟨hex, hreg, size, tr, hfs, by omega, hpl⟩
                · intro _ hcon
                  exact absurd hrm' hcon
    · simp only [wipe_file, hex, hreg, Bool.not_true, Bool.not_false, Bool.false_eq_true,
        if_false, if_true] at h
      injection h with h'
      subst h'
      constructor
      · intro hok; simp at hok
      · rintro ⟨-, hir, -⟩ -
        exact absurd hir (by simp [hreg])
  · simp only [wipe_file, hex, Bool.not_false, if_true] at h
    injection h with h'
    subst h'
    constructor
    · intro hok; simp at hok
    · rintro ⟨hpe, -⟩ -
      exact absurd hpe (by simp [hex])

/-- C2: `wipe_file` checks its preconditions in source order, first failure
winning: missing path → "Path does not exist"; not a regular file → the
"Path is not a regular file" message; undeterminable size → the underlying
filesystem error; `passes < 1` → "passes must be >= 1" with no modification.
The existence failure wins even when `passes < 1`. -/
theorem C2_wipe_file_precondition_order (w : FileWorld) (opt : WipeOptions) (fuel : Nat) :
    (w.pathExists = false →
      wipe_file w opt fuel =
        some { result := { ok := false, message := "Path does not exist" },
               trace := [], deleted := false }) ∧
    (w.pathExists = true → w.isRegularFile = false →
      wipe_file w opt fuel =
        some { result := { ok := false,
                           message := "Path is not a regular file (directories not supported in MVP)" },
               trace := [], deleted := false }) ∧
    (∀ m, w.pathExists = true → w.isRegularFile = true → w.fileSize = Except.error m →
      wipe_file w opt fuel =
        some { result := { ok := false, message := "Failed to get file size: " ++ m },
               trace := [], deleted := false }) ∧
    (∀ size, w.pathExists = true → w.isRegularFile = true → w.fileSize = Except.ok size →
      opt.passes < 1 →
      wipe_file w opt fuel =
        some { result := { ok := false, message := "passes must be >= 1" },
               trace := [], deleted := false }) := by
  refine ⟨?_, ?_, ?_, ?_⟩
  · intro hex
    simp [wipe_file, hex]
  · intro hex hreg
    simp [wipe_file, hex, hreg]
  · intro m hex hreg hfs
    simp [wipe_file, hex, hreg, hfs]
  · intro size hex hreg hfs hp
    have hp' : opt.passes ≤ 0 := by omega
    simp [wipe_file, hex, hreg, hfs, hp']

/-! ### Zeros-pattern write sequence -/

theorem chunkSizes_sum (b : Nat) (hb : b ≠ 0) : ∀ size, (chunkSizes b size).sum = size := by
  intro size
  induction size using Nat.strong_induction_on with
  | _ size ih =>
    by_cases h0 : size = 0
    · subst h0; rw [chunkSizes]; simp
    · have hlt : size - min b size < size :=
        Nat.sub_lt (Nat.pos_of_ne_zero h0)
          (lt_min (Nat.pos_of_ne_zero hb) (Nat.pos_of_ne_zero h0))
      rw [chunkSizes]
      simp only [h0, hb, dite_false]
      rw [List.sum_cons, ih _ hlt]
      have := Nat.min_le_right b size
      omega

theorem chunkLoop_zeros (w : FileWorld) (opt : WipeOptions) (pass : Nat)
    (hz : opt.pattern = Pattern.Zeros) (hb : 1 ≤ opt.block_size)
    (hw : ∀ i, w.writeOk pass i = true) :
    ∀ fuel remaining chunkIdx rngIdx, remaining ≤ fuel →
    ∃ tr, chunkLoop w opt pass fuel remaining chunkIdx rngIdx = some (none, tr, rngIdx) ∧
      tr.map List.length = chunkSizes opt.block_size remaining ∧
      ∀ c ∈ tr, ∀ b ∈ c, b = 0 := by
  intro fuel
  induction fuel with
  | zero =>
    intro remaining chunkIdx rngIdx hle
    have h0 : remaining = 0 := Nat.le_zero.mp hle
    subst h0
    refine ⟨[], ?_, ?_, by simp⟩
    · rw [chunkLoop]; simp
    · rw [chunkSizes]; simp
  | succ fuel ih =>
    intro remaining chunkIdx rngIdx hle
    by_cases h0 : remaining = 0
    · subst h0
      refine ⟨[], ?_, ?_, by simp⟩
      · rw [chunkLoop]; simp
      · rw [chunkSizes]; simp
    · have hchunkpos : 1 ≤ min remaining opt.block_size :=
        le_min (Nat.one_le_iff_ne_zero.mpr h0) hb
      have hrec : remaining - min remaining opt.block_size ≤ fuel := by omega
      obtain ⟨tr, htr, hlen, hzero⟩ :=
        ih (remaining - min remaining opt.block_size) (chunkIdx + 1) rngIdx hrec
      refine ⟨List.replicate (min remaining opt.block_size) 0 :: tr, ?_, ?_, ?_⟩
      · rw [chunkLoop]
        simp only [h0, if_false, hw chunkIdx, if_true, hz, fillChunk]
        simp [htr]
      · rw [chunkSizes]
        have hb0 : opt.block_size ≠ 0 := by omega
        simp only [h0, hb0, dite_false, List.map_cons, List.length_replicate]
        rw [Nat.min_comm remaining opt.block_size] at hlen ⊢
        simp [hlen]
      · intro c hc
        rcases List.mem_cons.mp hc with rfl | hc'
        · intro b hbm; exact List.eq_of_mem_replicate hbm
        · exact hzero c hc'

theorem passLoop_zeros (w : FileWorld) (opt : WipeOptions) (size fuel : Nat)
    (hz : opt.pattern = Pattern.Zeros) (hb : 1 ≤ opt.block_size) (hsf : size ≤ fuel)
    (hop : ∀ p, w.openOk p = true) (hw : ∀ p i, w.writeOk p i = true)
    (hfl : ∀ p, w.flushOk p = true) :
    ∀ n pass rngIdx, ∃ trs, passLoop w opt size fuel n pass rngIdx = some (none, trs) ∧
      trs.length = n ∧
      ∀ tr ∈ trs, tr.map List.length = chunkSizes opt.block_size size ∧
        ∀ c ∈ tr, ∀ b ∈ c, b = 0 := by
  intro n
  induction n with
  | zero => intro pass rngIdx; exact ⟨[], rfl, rfl, by simp⟩
  | succ n ih =>
    intro pass rngIdx
    obtain ⟨tr, htr, hlen, hzero⟩ :=
      chunkLoop_zeros w opt pass hz hb (hw pass) fuel size 0 rngIdx hsf
    obtain ⟨trs, htrs, hlens, hall⟩ := ih (pass + 1) rngIdx
    refine ⟨tr :: trs, ?_, by simp [hlens], ?_⟩
    · rw [passLoop]
      simp [hop pass, htr, hfl pass, htrs]
    · intro t ht
      rcases List.mem_cons.mp ht with rfl | ht'
      · exact ⟨hlen, hzero⟩
      · exact hall t ht'

/-- C3: for a regular file of size `size` with `pattern=Zeros`,
`passes = k ≥ 1` and `block_size = b ≥ 1`, each of the `k` passes writes
exactly `size` bytes, in successive chunks of size `min b remaining` with the
last chunk truncated, and every byte written in every pass is `0x00`. -/
theorem C3_zeros_writes_all_zero_chunks (w : FileWorld) (opt : WipeOptions)
    (size fuel : Nat) (o : WipeOutcome)
    (hex : w.pathExists = true) (hreg : w.isRegularFile = true)
    (hfs : w.fileSize = Except.ok size)
    (hz : opt.pattern = Pattern.Zeros) (hp : 1 ≤ opt.passes) (hb : 1 ≤ opt.block_size)
    (hop : ∀ p, w.openOk p = true) (hw : ∀ p i, w.writeOk p i = true)
    (hfl : ∀ p, w.flushOk p = true) (hsf : size ≤ fuel)
    (h : wipe_file w opt fuel = some o) :
    o.trace.length = opt.passes.toNat ∧
    ∀ tr ∈ o.trace,
      tr.map List.length = chunkSizes opt.block_size size ∧
      (tr.map List.length).sum = size ∧
      ∀ c ∈ tr, ∀ b ∈ c, b = 0 := by
  have hp' : ¬opt.passes ≤ 0 := by omega
  obtain ⟨trs, htrs, hlens, hall⟩ :=
    passLoop_zeros w opt size fuel hz hb hsf hop hw hfl opt.passes.toNat 1 0
  have hb0 : opt.block_size ≠ 0 := by omega
  have hotr : o.trace = trs := by
    by_cases hrm : (!w.removeRet || w.removeEc.isSome)
    · simp only [wipe_file, hex, hreg, hfs, hp', htrs, hrm, Bool.not_true,
        Bool.false_eq_true, if_false, if_true] at h
      injection h with h'
      rw [← h']
    · simp only [wipe_file, hex, hreg, hfs, hp', htrs, hrm, Bool.not_true,
        Bool.false_eq_true, if_false, if_true] at h
      injection h with h'
      rw [← h']
  rw [hotr]
  refine ⟨hlens, ?_⟩
  intro tr htr
  obtain ⟨hlen, hzero⟩ := hall tr htr
  exact ⟨hlen, by rw [hlen]; exact chunkSizes_sum opt.block_size hb0 size, hzero⟩

/-! ### Termination of the chunk loop -/

theorem chunkLoop_isSome (w : FileWorld) (opt : WipeOptions) (pass : Nat)
    (hb : 1 ≤ opt.block_size) :
    ∀ fuel remaining chunkIdx rngIdx, remaining ≤ fuel →
    (chunkLoop w opt pass fuel remaining chunkIdx rngIdx).isSome := by
  intro fuel
  induction fuel with
  | zero =>
    intro remaining ci ri hle
    have h0 : remaining = 0 := by omega
    subst h0
    rw [chunkLoop]; simp
  | succ fuel ih =>
    intro remaining ci ri hle
    by_cases h0 : remaining = 0
    · subst h0; rw [chunkLoop]; simp
    · rw [chunkLoop]
      simp only [h0, if_false]
      by_cases hwk : w.writeOk pass ci
      · simp only [hwk, if_true]
        have h1 : 1 ≤ min remaining opt.block_size := le_min (by omega) hb
        have hsome := ih (remaining - min remaining opt.block_size) (ci + 1)
          (if opt.pattern = Pattern.Random then ri + min remaining opt.block_size else ri)
          (by omega)
        cases hx : chunkLoop w opt pass fuel (remaining - min remaining opt.block_size)
            (ci + 1)
            (if opt.pattern = Pattern.Random then ri + min remaining opt.block_size else ri) with
        | none => rw [hx] at hsome; simp at hsome
        | some v =>
          obtain ⟨err, chunks, r⟩ := v
          simp
      · simp [hwk]

theorem passLoop_isSome (w : FileWorld) (opt : WipeOptions) (size fuel : Nat)
    (hb : 1 ≤ opt.block_size) (hsf : size ≤ fuel) :
    ∀ n pass rngIdx, (passLoop w opt size fuel n pass rngIdx).isSome := by
  intro n
  induction n with
  | zero => intro pass rngIdx; rw [passLoop_zero]; simp
  | succ n ih =>
    intro pass rngIdx
    rw [passLoop]
    by_cases ho : w.openOk pass
    · simp only [ho, if_true]
      have hsome := chunkLoop_isSome w opt pass hb fuel size 0 rngIdx hsf
      cases hx : chunkLoop w opt pass fuel size 0 rngIdx with
      | none => rw [hx] at hsome; simp at hsome
      | some v =>
        obtain ⟨err, chunks, rng'⟩ := v
        cases err with
        | some e => simp [hx]
        | none =>
          simp only [hx]
          by_cases hf : w.flushOk pass
          · simp only [hf, if_true]
            have hsome2 := ih (pass + 1) rng'
            cases hp2 : passLoop w opt size fuel n (pass + 1) rng' with
            | none => rw [hp2] at hsome2; simp at hsome2
            | some v2 =>
              obtain ⟨e2, rest⟩ := v2
              simp [hp2]
          · simp [hf]
    · simp [ho]

theorem chunkLoop_blocksize_zero_none (w : FileWorld) (opt : WipeOptions) (pass : Nat)
    (hb : opt.block_size = 0) (hw : ∀ i, w.writeOk pass i = true) :
    ∀ fuel remaining chunkIdx rngIdx, remaining ≠ 0 →
    chunkLoop w opt pass fuel remaining chunkIdx rngIdx = none := by
  intro fuel
  induction fuel with
  | zero =>
    intro remaining ci ri h0
    rw [chunkLoop]; simp [h0]
  | succ fuel ih =>
    intro remaining ci ri h0
    rw [chunkLoop]
    simp only [h0, if_false, hw ci, if_true, hb, Nat.min_zero, Nat.sub_zero, Nat.add_zero,
      ite_self]
    rw [ih remaining (ci + 1) ri h0]

/-- C10: `wipe_file` never validates `block_size`.  With `block_size ≥ 1` the
per-pass chunk loop terminates (fuel equal to the remaining byte count
suffices, since `remaining` strictly decreases by `min(block_size, remaining)`
each iteration) and `wipe_file` yields a result; with `block_size = 0` and a
non-empty file the chunk size is always `0`, the loop never finishes for any
fuel, and `wipe_file` yields no result. -/
theorem C10_blocksize_termination (w : FileWorld) (opt : WipeOptions) (size fuel : Nat)
    (hex : w.pathExists = true) (hreg : w.isRegularFile = true)
    (hfs : w.fileSize = Except.ok size) (hp : 1 ≤ opt.passes) :
    (1 ≤ opt.block_size → ∀ rem ci ri, rem ≤ fuel →
      (chunkLoop w opt 1 fuel rem ci ri).isSome) ∧
    (1 ≤ opt.block_size → size ≤ fuel → (wipe_file w opt fuel).isSome) ∧
    (opt.block_size = 0 → (∀ i, w.writeOk 1 i = true) → ∀ rem ci ri, rem ≠ 0 →
      chunkLoop w opt 1 fuel rem ci ri = none) ∧
    (opt.block_size = 0 → 1 ≤ size → w.openOk 1 = true → (∀ i, w.writeOk 1 i = true) →
      wipe_file w opt fuel = none) := by
  have hp' : ¬opt.passes ≤ 0 := by omega
  refine ⟨?_, ?_, ?_, ?_⟩
  · intro hb rem ci ri hle
    exact chunkLoop_isSome w opt 1 hb fuel rem ci ri hle
  · intro hb hsf
    have hsome := passLoop_isSome w opt size fuel hb hsf opt.passes.toNat 1 0
    cases hpl : passLoop w opt size fuel opt.passes.toNat 1 0 with
    | none => rw [hpl] at hsome; simp at hsome
    | some v =>
      obtain ⟨err, tr⟩ := v
      cases err with
      | some e => simp [wipe_file, hex, hreg, hfs, hp', hpl]
      | none =>
        by_cases hrm : (!w.removeRet || w.removeEc.isSome)
        · simp [wipe_file, hex, hreg, hfs, hp', hpl, hrm]
        · simp [wipe_file, hex, hreg, hfs, hp', hpl, hrm]
  · intro hb hw rem ci ri h0
    exact chunkLoop_blocksize_zero_none w opt 1 hb hw fuel rem ci ri h0
  · intro hb hs ho hw
    have hn : opt.passes.toNat = (opt.passes.toNat - 1) + 1 := by omega
    have hcl := chunkLoop_blocksize_zero_none w opt 1 hb hw fuel size 0 0 (by omega)
    simp only [wipe_file, hex, hreg, hfs, hp', Bool.not_true, Bool.false_eq_true, if_false,
      if_true]
    rw [hn, passLoop]
    simp [ho, hcl]

/-! ### Helper lemmas about the directory traversals -/

theorem enumerateFiles_fst (dry_run : Bool) :
    ∀ es : List DirEntry, (enumerateFiles dry_run es).1 = (es.filter qualifies).length := by
  intro es
  induction es with
  | nil => rfl
  | cons e rest ih =>
    by_cases hq : qualifies e
    · simp [enumerateFiles, hq, List.filter_cons, ih]
    · simp [enumerateFiles, hq, List.filter_cons, ih]

theorem enumerateFiles_snd_dry :
    ∀ es : List DirEntry, (enumerateFiles true es).2 =
      (es.filter qualifies).map (fun e => DirEvent.previewNotice e.path) := by
  intro es
  induction es with
  | nil => rfl
  | cons e rest ih =>
    by_cases hq : qualifies e
    · simp [enumerateFiles, hq, List.filter_cons, ih]
    · simp [enumerateFiles, hq, List.filter_cons, ih]

theorem execEntries_eq_spec (opt : WipeOptions) (fuel : Nat) :
    ∀ es wiped failed evs, execEntries opt fuel es = some (wiped, failed, evs) →
    wiped = (es.filter (fun e => qualifies e && wipeOk opt fuel e)).length ∧
    failed = (es.filter (fun e => qualifies e && !wipeOk opt fuel e)).length ∧
    evs = (es.filter qualifies).map (fun e => DirEvent.wipeAttempt e.path) := by
  intro es
  induction es with
  | nil =>
    intro wiped failed evs h
    simp only [execEntries, Option.some.injEq, Prod.mk.injEq] at h
    obtain ⟨h1, h2, h3⟩ := h
    subst h1; subst h2; subst h3
    simp
  | cons e rest ih =>
    intro wiped failed evs h
    by_cases hq : qualifies e = true
    · simp only [execEntries, hq, if_true] at h
      cases hwf : wipe_file e.fileWorld opt fuel with
      | none => rw [hwf] at h; simp at h
      | some o =>
        rw [hwf] at h
        cases hrec : execEntries opt fuel rest with
        | none => rw [hrec] at h; simp at h
        | some v =>
          obtain ⟨w', f', evs'⟩ := v
          rw [hrec] at h
          obtain ⟨hw, hf, he⟩ := ih w' f' evs' hrec
          by_cases hok : o.result.ok = true
          · simp only [hok, if_true, Option.some.injEq, Prod.mk.injEq] at h
            obtain ⟨h1, h2, h3⟩ := h
            subst h1; subst h2; subst h3
            refine ⟨?_, ?_, ?_⟩
            · simp [List.filter_cons, hq, wipeOk, hwf, hok, hw]
            · simp [List.filter_cons, hq, wipeOk, hwf, hok, hf]
            · simp [List.filter_cons, hq, he]
          · simp only [hok, if_false, Option.some.injEq, Prod.mk.injEq,
              Bool.not_eq_true, Bool.false_eq_true] at h
            obtain ⟨h1, h2, h3⟩ := h
            subst h1; subst h2; subst h3
            rw [Bool.not_eq_true] at hok
            refine ⟨?_, ?_, ?_⟩
            · simp [List.filter_cons, hq, wipeOk, hwf, hok, hw]
            · simp [List.filter_cons, hq, wipeOk, hwf, hok, hf]
            · simp [List.filter_cons, hq, he]
    · simp only [execEntries, hq, if_false] at h
      obtain ⟨hw, hf, he⟩ := ih wiped failed evs h
      have hq' : qualifies e = false := by
        rw [Bool.not_eq_true] at hq; exact hq
      refine ⟨?_, ?_, ?_⟩
      · simp [List.filter_cons, hq', hw]
      · simp [List.filter_cons, hq', hf]
      · simp [List.filter_cons, hq', he]

theorem is_dangerous_usedCanon (w : DirWorld) (canon : String)
    (h : usedCanon w = some canon) :
    is_dangerous_dir w = (fixedDenyHit canon || homeHit w canon) := by
  cases hwc : w.weaklyCanonical with
  | ok c =>
    simp only [usedCanon, hwc, Option.some.injEq] at h
    subst h
    simp [is_dangerous_dir, hwc]
  | error u =>
    cases hab : w.absolutePath with
    | ok c =>
      simp only [usedCanon, hwc, hab, Option.some.injEq] at h
      subst h
      simp [is_dangerous_dir, hwc, hab]
    | error u2 =>
      simp [usedCanon, hwc, hab] at h

/-- C4: for every combination of `dry_run` and `confirmed`, `wipe_directory`
on a directory whose canonical path equals the filesystem root, one of the
deny-listed system directories, or the canonical home directory resolved from
`HOME` (when set and resolvable) refuses with `ok=false` before any traversal
or mutation; when `HOME` is unset or unresolvable the home check is skipped
and only the fixed deny-list applies. -/
theorem C4_dangerous_dir_refusal (w : DirWorld) (opt : WipeOptions) (fuel : Nat)
    (canon : String) (hcanon : usedCanon w = some canon)
    (hex : w.dirExists = true) (hec : w.dirExistsEc = false)
    (hd : w.isDir = true) (hdec : w.isDirEc = false) :
    ((canon = "/" ∨ canon = "/System" ∨ canon = "/Library" ∨ canon = "/Applications" ∨
      (∃ h hc, w.home = some h ∧ w.homeCanonical = Except.ok hc ∧ canon = hc)) →
      ∀ dry_run confirmed,
        wipe_directory w opt dry_run confirmed fuel =
          some (emptyOutcome false
            "Refusing to wipe a dangerous directory. Choose a safer target.")) ∧
    ((w.home = none ∨ w.homeCanonical = Except.error ()) →
      is_dangerous_dir w = fixedDenyHit canon) := by
  constructor
  · intro hhit dry_run confirmed
    have hdang : is_dangerous_dir w = true := by
      rw [is_dangerous_usedCanon w canon hcanon]
      rcases hhit with h | h | h | h | ⟨hh, hcn, hhome, hhc, hceq⟩
      · simp [fixedDenyHit, h]
      · simp [fixedDenyHit, h]
      · simp [fixedDenyHit, h]
      · simp [fixedDenyHit, h]
      · have : homeHit w canon = true := by
          simp [homeHit, hhome, hhc, hceq]
        simp [this]
    simp [wipe_directory, hex, hec, hd, hdec, hdang]
  · intro hskip
    rw [is_dangerous_usedCanon w canon hcanon]
    have : homeHit w canon = false := by
      rcases hskip with h | h
      · simp [homeHit, h]
      · cases hh : w.home with
        | none => simp [homeHit, hh]
        | some x => simp [homeHit, hh, h]
    simp [this]

/-- C4 witness: the deny-listed `/System` is refused in both modes, and a
directory equal to the resolved home directory is refused as well. -/
theorem C4_dangerous_dir_refusal_witness :
    wipe_directory dwDanger optDir true false 0 =
      some (emptyOutcome false
        "Refusing to wipe a dangerous directory. Choose a safer target.") ∧
    wipe_directory dwDanger optDir false true 0 =
      some (emptyOutcome false
        "Refusing to wipe a dangerous directory. Choose a safer target.") ∧
    wipe_directory dwHome optDir false false 0 =
      some (emptyOutcome false
        "Refusing to wipe a dangerous directory. Choose a safer target.") := by
  have h1 := (C4_dangerous_dir_refusal dwDanger optDir 0 "/System" rfl rfl rfl rfl rfl).1
    (Or.inr (Or.inl rfl))
  have h2 := (C4_dangerous_dir_refusal dwHome optDir 0 "/Users/u" rfl rfl rfl rfl rfl).1
    (Or.inr (Or.inr (Or.inr (Or.inr ⟨"/Users/u", "/Users/u", rfl, rfl, rfl⟩))))
  exact ⟨h1 true false, h1 false true, h2 false false⟩

/-- C5 counterexample: when `fs::weakly_canonical` fails but the
`fs::absolute` fallback succeeds on a harmless path, `wipe_directory` does
not refuse — the claimed unconditional fail-closed behaviour does not hold. -/
theorem C5_counterexample_fallback_proceeds :
    dwCanonFail.weaklyCanonical = Except.error () ∧
    (wipe_directory dwCanonFail optDir true false 0).map (fun o => o.result) =
      some { ok := true,
             message := "Dry-run complete. Files to wipe: 0. Re-run with --yes to execute." } :=
  ⟨rfl, rfl⟩

/-- C5 (amended): on canonicalization failure the code falls back to
`fs::absolute`; only when that fallback also fails is the target treated as
dangerous, and then `wipe_directory` refuses with `ok=false` for every
combination of `dry_run` and `confirmed`; when the fallback succeeds, the
fallback path is checked against the deny list instead. -/
theorem C5_canonicalization_failure_fail_closed (w : DirWorld) (opt : WipeOptions)
    (fuel : Nat) (dry_run confirmed : Bool)
    (hex : w.dirExists = true) (hec : w.dirExistsEc = false)
    (hd : w.isDir = true) (hdec : w.isDirEc = false)
    (hwc : w.weaklyCanonical = Except.error ()) :
    (w.absolutePath = Except.error () →
      wipe_directory w opt dry_run confirmed fuel =
        some (emptyOutcome false
          "Refusing to wipe a dangerous directory. Choose a safer target.")) ∧
    (∀ c, w.absolutePath = Except.ok c →
      is_dangerous_dir w = (fixedDenyHit c || homeHit w c)) := by
  constructor
  · intro hab
    have hdang : is_dangerous_dir w = true := by
      simp [is_dangerous_dir, hwc, hab]
    simp [wipe_directory, hex, hec, hd, hdec, hdang]
  · intro c hab
    simp [is_dangerous_dir, hwc, hab]

/-- C5 witness: when both canonicalizations fail, both modes refuse. -/
theorem C5_canonicalization_failure_witness :
    wipe_directory dwBothFail optDir true false 0 =
      some (emptyOutcome false
        "Refusing to wipe a dangerous directory. Choose a safer target.") ∧
    wipe_directory dwBothFail optDir false true 0 =
      some (emptyOutcome false
        "Refusing to wipe a dangerous directory. Choose a safer target.") :=
  ⟨(C5_canonicalization_failure_fail_closed dwBothFail optDir 0 true false
      rfl rfl rfl rfl rfl).1 rfl,
   (C5_canonicalization_failure_fail_closed dwBothFail optDir 0 false true
      rfl rfl rfl rfl rfl).1 rfl⟩

/-- C6: on an existing, non-dangerous directory, `wipe_directory` with
`dry_run=false` and `confirmed=false` returns `ok=false` with the
safety-stop message and performs no traversal and no mutation: no events,
zero counters, nothing removed. -/
theorem C6_safety_stop_no_effects (w : DirWorld) (opt : WipeOptions) (fuel : Nat)
    (hex : w.dirExists = true) (hec : w.dirExistsEc = false)
    (hd : w.isDir = true) (hdec : w.isDirEc = false)
    (hsafe : is_dangerous_dir w = false) :
    wipe_directory w opt false false fuel =
      some { result := { ok := false,
                         message := "Safety stop: wipe-dir requires --dry-run (preview) or --yes (execute)." },
             events := [], totalFiles := 0, wipedFiles := 0, failedFiles := 0,
             removedPaths := [] } := by
  simp [wipe_directory, hex, hec, hd, hdec, hsafe, emptyOutcome]

/-- C6 witness: the safety stop on the concrete safe directory. -/
theorem C6_safety_stop_witness :
    wipe_directory dwSafe optDir false false 3 =
      some { result := { ok := false,
                         message := "Safety stop: wipe-dir requires --dry-run (preview) or --yes (execute)." },
             events := [], totalFiles := 0, wipedFiles := 0, failedFiles := 0,
             removedPaths := [] } :=
  C6_safety_stop_no_effects dwSafe optDir 3 rfl rfl rfl rfl rfl

/-- C7: on an existing, non-dangerous directory, `wipe_directory` with
`dry_run=true` (any `confirmed`) performs no mutation, counts exactly the
qualifying regular files (symlinks and error-skipped entries excluded,
permission-denied entries never enumerated), emits one preview notice per
counted file, and returns `ok=true` with the count-and-reinvoke message. -/
theorem C7_dry_run_counts_without_mutation (w : DirWorld) (opt : WipeOptions)
    (fuel : Nat) (confirmed : Bool)
    (hex : w.dirExists = true) (hec : w.dirExistsEc = false)
    (hd : w.isDir = true) (hdec : w.isDirEc = false)
    (hsafe : is_dangerous_dir w = false) :
    wipe_directory w opt true confirmed fuel =
      some { result := { ok := true,
                         message := "Dry-run complete. Files to wipe: " ++
                           toString (w.entries.filter qualifies).length ++
                           ". Re-run with --yes to execute." },
             events := (w.entries.filter qualifies).map
               (fun e => DirEvent.previewNotice e.path),
             totalFiles := (w.entries.filter qualifies).length,
             wipedFiles := 0, failedFiles := 0, removedPaths := [] } ∧
    (∀ e ∈ w.entries, (e.isSymlink = true ∨ e.iterEc = true) → qualifies e = false) := by
  constructor
  · have h1 := enumerateFiles_fst true w.entries
    have h2 := enumerateFiles_snd_dry w.entries
    simp [wipe_directory, hex, hec, hd, hdec, hsafe, h1, h2]
  · intro e _ hsym
    rcases hsym with h | h <;> simp [qualifies, h]

/-- C7 witness: the dry run on the concrete safe directory counts the two
regular files, skips the symlink, previews both and mutates nothing. -/
theorem C7_dry_run_witness :
    wipe_directory dwSafe optDir true false 3 =
      some { result := { ok := true,
                         message := "Dry-run complete. Files to wipe: 2. Re-run with --yes to execute." },
             events := [DirEvent.previewNotice "/tmp/work/a.txt",
                        DirEvent.previewNotice "/tmp/work/b.txt"],
             totalFiles := 2, wipedFiles := 0, failedFiles := 0, removedPaths := [] } :=
  (C7_dry_run_counts_without_mutation dwSafe optDir 3 false rfl rfl rfl rfl rfl).1

/-- C8: in execute mode a per-file `wipe_file` failure does not abort the
sweep: every qualifying file still gets a wipe attempt, successes and
failures are counted over all qualifying entries, `ok = (failed_files == 0)`,
and the message reports total, wiped and failed counts. -/
theorem C8_execute_partial_failure (w : DirWorld) (opt : WipeOptions) (fuel : Nat)
    (o : DirOutcome)
    (hex : w.dirExists = true) (hec : w.dirExistsEc = false)
    (hd : w.isDir = true) (hdec : w.isDirEc = false)
    (hsafe : is_dangerous_dir w = false)
    (h : wipe_directory w opt false true fuel = some o) :
    o.wipedFiles = (w.entries.filter (fun e => qualifies e && wipeOk opt fuel e)).length ∧
    o.failedFiles = (w.entries.filter (fun e => qualifies e && !wipeOk opt fuel e)).length ∧
    o.totalFiles = (w.entries.filter qualifies).length ∧
    o.result.ok = (o.failedFiles == 0) ∧
    o.result.message = "wipe-dir complete. total=" ++ toString o.totalFiles ++
      ", wiped=" ++ toString o.wipedFiles ++ ", failed=" ++ toString o.failedFiles ∧
    (∀ e ∈ w.entries, qualifies e = true → DirEvent.wipeAttempt e.path ∈ o.events) := by
  simp only [wipe_directory, hex, hec, hd, hdec, hsafe, Bool.not_true, Bool.not_false,
    Bool.false_or, Bool.and_false, Bool.false_eq_true, if_false] at h
  cases hrec : execEntries opt fuel w.entries with
  | none => rw [hrec] at h; simp at h
  | some v =>
    obtain ⟨wiped, failed, evs⟩ := v
    rw [hrec] at h
    obtain ⟨hw, hf, he⟩ := execEntries_eq_spec opt fuel w.entries wiped failed evs hrec
    simp only [Option.some.injEq] at h
    subst h
    have htot := enumerateFiles_fst false w.entries
    refine ⟨hw, hf, htot, rfl, by rw [htot], ?_⟩
    intro e hmem hq
    have : DirEvent.wipeAttempt e.path ∈ evs := by
      rw [he]
      exact List.mem_map_of_mem _ (List.mem_filter.mpr ⟨hmem, hq⟩)
    exact List.mem_append_left _ this

/-- C8 witness: on the concrete safe directory, `a.txt` is wiped, the
vanished `b.txt` fails without stopping the sweep, and the result reports
`total=2, wiped=1, failed=1` with `ok=false`. -/
theorem C8_execute_partial_failure_witness :
    dwSafeExecOutcome.wipedFiles =
      (dwSafe.entries.filter (fun e => qualifies e && wipeOk optDir 3 e)).length ∧
    dwSafeExecOutcome.failedFiles =
      (dwSafe.entries.filter (fun e => qualifies e && !wipeOk optDir 3 e)).length ∧
    dwSafeExecOutcome.totalFiles = (dwSafe.entries.filter qualifies).length ∧
    dwSafeExecOutcome.result.ok = (dwSafeExecOutcome.failedFiles == 0) ∧
    dwSafeExecOutcome.result.message = "wipe-dir complete. total=" ++
      toString dwSafeExecOutcome.totalFiles ++ ", wiped=" ++
      toString dwSafeExecOutcome.wipedFiles ++ ", failed=" ++
      toString dwSafeExecOutcome.failedFiles ∧
    (∀ e ∈ dwSafe.entries, qualifies e = true →
      DirEvent.wipeAttempt e.path ∈ dwSafeExecOutcome.events) :=
  C8_execute_partial_failure dwSafe optDir 3 dwSafeExecOutcome rfl rfl rfl rfl rfl (by rfl)

/-- C9: contrary to the claim that symlinks are never deleted and survive the
sweep, the execute-mode cleanup collects a symlink whose target is a
directory (`fs::is_directory` follows links) and removes it: on a safe
directory whose only descendant is such a symlink, the sweep counts and
wipes nothing, yet the symlink path ends up removed. -/
theorem C9_cleanup_removes_symlink_to_directory :
    dwSymdir.entries.map (fun e => e.isSymlink) = [true] ∧
    (wipe_directory dwSymdir optDir false true 3).map (fun o => o.removedPaths) =
      some ["/tmp/tree/escape"] ∧
    (wipe_directory dwSymdir optDir false true 3).map (fun o => o.events) =
      some [DirEvent.removeDirAttempt "/tmp/tree/escape"] ∧
    (wipe_directory dwSymdir optDir false true 3).map
        (fun o => (o.totalFiles, o.wipedFiles, o.failedFiles)) = some (0, 0, 0) :=
  ⟨rfl, rfl, rfl, rfl⟩

/-- C1 witness: the all-success 3-byte file with two passes yields the exact
success message, is deleted, and no longer exists afterwards; on the same
file with a failing `fs::remove`, the overwrite succeeds but the result is
`ok=false` with a message beginning "Failed to delete file: ". -/
theorem C1_wipe_file_success_witness :
    (wipe_file fwOk optZeros2 3 = some fwOkOutcome ∧
     fwOkOutcome.result.message = "Wiped and deleted successfully" ∧
     fwOkOutcome.deleted = true ∧ existsAfter fwOk fwOkOutcome = false ∧
     fwOkOutcome.trace.length = optZeros2.passes.toNat) ∧
    ((wipe_file fwNoDelete optZeros2 3).map (fun o => o.result.ok) = some false ∧
     (wipe_file fwNoDelete optZeros2 3).map (fun o => o.result.message) =
       some "Failed to delete file: Permission denied") := by
  have h := (C1_wipe_file_success_and_delete_failure fwOk optZeros2 3 fwOkOutcome
    (by rfl)).1 rfl
  have h2 := (C1_wipe_file_success_and_delete_failure fwNoDelete optZeros2 3
    { result := { ok := false, message := "Failed to delete file: Permission denied" },
      trace := [[[0, 0], [0]], [[0, 0], [0]]], deleted := false }
    (by rfl)).2
    ⟨rfl, rfl, 3, [[[0, 0], [0]], [[0, 0], [0]]], rfl, by decide, by rfl⟩
    (by intro hc; exact absurd hc.1 (by decide))
  refine ⟨⟨by rfl, h.1, h.2.1, h.2.2.1, h.2.2.2.2.2.1⟩, ?_, by rfl⟩
  rw [(by rfl :
      wipe_file fwNoDelete optZeros2 3 =
        some { result := { ok := false,
                           message := "Failed to delete file: Permission denied" },
               trace := [[[0, 0], [0]], [[0, 0], [0]]], deleted := false })]
  simp [h2.1]

/-- C2 witness: each precondition failure at a concrete input, including the
not-found error winning over `passes < 1`. -/
theorem C2_precondition_order_witness :
    wipe_file fwMissing optPassesZero 0 =
      some { result := { ok := false, message := "Path does not exist" },
             trace := [], deleted := false } ∧
    wipe_file fwNotRegular optDir 0 =
      some { result := { ok := false,
                         message := "Path is not a regular file (directories not supported in MVP)" },
             trace := [], deleted := false } ∧
    wipe_file fwSizeErr optDir 0 =
      some { result := { ok := false,
                         message := "Failed to get file size: Input/output error" },
             trace := [], deleted := false } ∧
    wipe_file fwOk optPassesZero 0 =
      some { result := { ok := false, message := "passes must be >= 1" },
             trace := [], deleted := false } :=
  ⟨(C2_wipe_file_precondition_order fwMissing optPassesZero 0).1 rfl,
   (C2_wipe_file_precondition_order fwNotRegular optDir 0).2.1 rfl rfl,
   (C2_wipe_file_precondition_order fwSizeErr optDir 0).2.2.1 "Input/output error" rfl rfl rfl,
   (C2_wipe_file_precondition_order fwOk optPassesZero 0).2.2.2 3 rfl rfl rfl (by decide)⟩

/-- C3 witness: on the all-success 3-byte file with two zero-fill passes and
2-byte blocks, both passes write the chunks `[0,0]` and `[0]`: chunk sizes
`min 2 remaining`, 3 bytes per pass, every byte zero. -/
theorem C3_zeros_witness :
    fwOkOutcome.trace.length = optZeros2.passes.toNat ∧
    ∀ tr ∈ fwOkOutcome.trace,
      tr.map List.length = chunkSizes optZeros2.block_size 3 ∧
      (tr.map List.length).sum = 3 ∧
      ∀ c ∈ tr, ∀ b ∈ c, b = 0 :=
  C3_zeros_writes_all_zero_chunks fwOk optZeros2 3 3 fwOkOutcome rfl rfl rfl rfl
    (by decide) (by decide) (fun _ => rfl) (fun _ _ => rfl) (fun _ => rfl)
    (by decide) (by rfl)

/-- C10 witness: with `block_size = 4` the 3-byte wipe finishes; with
`block_size = 0` on the same non-empty file no amount of fuel makes
`wipe_file` finish. -/
theorem C10_blocksize_termination_witness :
    (wipe_file fwOk optDir 3).isSome = true ∧
    wipe_file fwOk optBlockZero 5 = none :=
  ⟨(C10_blocksize_termination fwOk optDir 3 3 rfl rfl rfl (by decide)).2.1
      (by decide) (by decide),
   (C10_blocksize_termination fwOk optBlockZero 3 5 rfl rfl rfl (by decide)).2.2.2
      rfl (by decide) rfl (fun _ => rfl)⟩
